import Mathlib

/-!
Verification development for the rdv rendezvous library (betamos/rdv).

The definitions below are a shallow embedding of the Go source:
pure functions are translated directly, the stateful server event loop is
modelled as an explicit state-transition function, and side effects such as
writing an HTTP error response are recorded as values.  Machine integers
(uint32 bitmasks, uint16 ports) are modelled as Nat; the bitmask operations
used by the source never overflow 32 bits on the values involved.
-/

namespace Rdv

/-! ## Address spaces (common.go) -/

/-- Go: type AddrSpace uint32. -/
abbrev AddrSpace := Nat

/-- Go: SpaceInvalid AddrSpace = 0. -/
def SpaceInvalid : AddrSpace := 0

/-- Go: SpacePublic4 AddrSpace = 1 << iota, with iota = 1 in its const block. -/
def SpacePublic4 : AddrSpace := 2

/-- Go: SpacePublic6 = 1 << 2. -/
def SpacePublic6 : AddrSpace := 4

/-- Go: SpacePrivate4 = 1 << 3. -/
def SpacePrivate4 : AddrSpace := 8

/-- Go: SpacePrivate6 = 1 << 4. -/
def SpacePrivate6 : AddrSpace := 16

/-- Go: SpaceLink4 = 1 << 5. -/
def SpaceLink4 : AddrSpace := 32

/-- Go: SpaceLink6 = 1 << 6. -/
def SpaceLink6 : AddrSpace := 64

/-- Go: SpaceLoopback = 1 << 7. -/
def SpaceLoopback : AddrSpace := 128

/-- Go: NoSpaces AddrSpace = 1 << 31. -/
def NoSpaces : AddrSpace := 2147483648

/-- Go: PublicSpaces = SpacePublic4 | SpacePublic6. -/
def PublicSpaces : AddrSpace := SpacePublic4 ||| SpacePublic6

/-- Go: DefaultSpaces = SpacePublic4 | SpacePublic6 | SpacePrivate4 | SpacePrivate6. -/
def DefaultSpaces : AddrSpace := SpacePublic4 ||| SpacePublic6 ||| SpacePrivate4 ||| SpacePrivate6

/-- Go: AllSpaces = ^NoSpaces, as a uint32 complement: 0x7fffffff. -/
def AllSpaces : AddrSpace := 2147483647

/-- Go: func (s AddrSpace) Includes(space AddrSpace) bool \x7b return space&s != 0 \x7d.
The receiver s is the mask, the argument is the space being tested. -/
def AddrSpace.Includes (s space : AddrSpace) : Bool := (space &&& s) != 0

/-- The eight members of the AddressSpace enumeration, as listed by the spec. -/
def spaceEnumeration : List AddrSpace :=
  [SpaceInvalid, SpacePublic4, SpacePublic6, SpacePrivate4, SpacePrivate6,
   SpaceLink4, SpaceLink6, SpaceLoopback]

/-! ## IP addresses (model of Go net/netip.Addr)

netip.Addr is a 128-bit value plus a discriminator telling whether the address
was built from 4 bytes.  We model it as an inductive with a v4 form (four
octets), a v6 form (eight 16-bit groups; IPv4-mapped IPv6 addresses keep the
v6 form, as in netip where Is4 is false for them), and the zero Addr.
Zones are not modelled. -/

inductive Addr where
  | nullAddr : Addr
  | v4 (a b c d : Nat) : Addr
  | v6 (w0 w1 w2 w3 w4 w5 w6 w7 : Nat) : Addr
deriving DecidableEq, Repr

namespace Addr

/-- netip: the zero Addr is invalid, every parsed address is valid. -/
def IsValid : Addr → Bool
  | .nullAddr => false
  | _ => true

/-- netip: Is4 is true only for addresses built from 4 bytes. -/
def Is4 : Addr → Bool
  | .v4 _ _ _ _ => true
  | _ => false

/-- netip.Addr.IsUnspecified: 0.0.0.0 or ::. -/
def IsUnspecified : Addr → Bool
  | .v4 0 0 0 0 => true
  | .v6 0 0 0 0 0 0 0 0 => true
  | _ => false

/-- netip.Addr.IsMulticast: 224.0.0.0/4 for v4, ff00::/8 for v6. -/
def IsMulticast : Addr → Bool
  | .v4 a _ _ _ => a &&& 240 == 224
  | .v6 w0 _ _ _ _ _ _ _ => w0 >>> 8 == 255
  | .nullAddr => false

/-- netip.Addr.IsLoopback: 127.0.0.0/8 for v4, ::1 for v6. -/
def IsLoopback : Addr → Bool
  | .v4 a _ _ _ => a == 127
  | .v6 0 0 0 0 0 0 0 1 => true
  | _ => false

/-- netip.Addr.IsLinkLocalUnicast: 169.254.0.0/16 for v4, fe80::/10 for v6. -/
def IsLinkLocalUnicast : Addr → Bool
  | .v4 a b _ _ => a == 169 && b == 254
  | .v6 w0 _ _ _ _ _ _ _ => w0 &&& 65472 == 65152
  | .nullAddr => false

/-- netip.Addr.IsPrivate: RFC 1918 for v4 (10/8, 172.16/12, 192.168/16),
fc00::/7 for v6. -/
def IsPrivate : Addr → Bool
  | .v4 a b _ _ => a == 10 || (a == 172 && 16 ≤ b && b ≤ 31) || (a == 192 && b == 168)
  | .v6 w0 _ _ _ _ _ _ _ => w0 &&& 65024 == 64512
  | .nullAddr => false

/-- netip.Addr.IsGlobalUnicast: valid, not 0.0.0.0 nor 255.255.255.255 for v4,
not ::, not loopback, not multicast, not link-local unicast. -/
def IsGlobalUnicast (ip : Addr) : Bool :=
  ip.IsValid
    && !(ip.Is4 && (ip == .v4 0 0 0 0 || ip == .v4 255 255 255 255))
    && ip != .v6 0 0 0 0 0 0 0 0
    && !ip.IsLoopback
    && !ip.IsMulticast
    && !ip.IsLinkLocalUnicast

end Addr

/-- Go: func GetAddrSpace(ip netip.Addr) AddrSpace (common.go). -/
def GetAddrSpace (ip : Addr) : AddrSpace :=
  if !ip.IsValid || ip.IsUnspecified || ip.IsMulticast then SpaceInvalid
  else if ip.IsLoopback then SpaceLoopback
  else if ip.IsLinkLocalUnicast then
    if ip.Is4 then SpaceLink4 else SpaceLink6
  else if ip.IsPrivate then
    if ip.Is4 then SpacePrivate4 else SpacePrivate6
  else if ip.IsGlobalUnicast then
    if ip.Is4 then SpacePublic4 else SpacePublic6
  else SpaceInvalid

/-- Go: netip.AddrPort, an address plus a uint16 port. -/
structure AddrPort where
  addr : Addr
  port : Nat
deriving DecidableEq, Repr

/-! ## String helpers (util.go) and a model of netip parsing

The parsing functions below model Go net/netip.ParseAddr / ParseAddrPort
for zone-free addresses: dotted-quad IPv4 with 1-3 digit fields, values at
most 255 and no leading zeros; IPv6 as colon-separated 1-4 digit hex groups
with at most one double-colon that must stand for at least one zero group,
and an optional embedded dotted-quad in the last two groups. -/

/-- Go strings.Split for a one-character separator, over the character list.
All separators the source passes (comma, dot, colon) are one character. -/
def splitCharList (sep : Char) : List Char → List (List Char)
  | [] => [[]]
  | c :: rest =>
    if c = sep then [] :: splitCharList sep rest
    else
      match splitCharList sep rest with
      | [] => [[c]]
      | h :: t => (c :: h) :: t

/-- Split on the two-character separator used by the IPv6 ellipsis. -/
def splitDoubleColonList : List Char → List (List Char)
  | [] => [[]]
  | ':' :: ':' :: rest => [] :: splitDoubleColonList rest
  | c :: rest =>
    match splitDoubleColonList rest with
    | [] => [[c]]
    | h :: t => (c :: h) :: t

/-- Join with a one-character separator, the inverse of splitCharList. -/
def joinCharList (sep : Char) : List (List Char) → List Char
  | [] => []
  | [x] => x
  | x :: xs => x ++ sep :: joinCharList sep xs

/-- Go unicode.IsSpace on the ASCII range relevant to header values. -/
def isSpaceChar (c : Char) : Bool :=
  c == ' ' || c == '\t' || c == '\n' || c == '\x0b' || c == '\x0c' || c == '\r'

/-- Go strings.TrimSpace on the character list. -/
def trimList (cs : List Char) : List Char :=
  ((cs.dropWhile isSpaceChar).reverse.dropWhile isSpaceChar).reverse

/-- Go strings.ToLower restricted to ASCII, which covers every header value
the source compares. -/
def lowerChar (c : Char) : Char :=
  if 65 ≤ c.toNat && c.toNat ≤ 90 then Char.ofNat (c.toNat + 32) else c

def toLowerStr (s : String) : String :=
  String.mk (s.toList.map lowerChar)

/-- Go: func splitAndTrim(s, sep string) (util.go): strings.Split then
strings.TrimSpace on every part; the separator is one character at every
call site. -/
def splitAndTrim (s : String) (sep : Char) : List String :=
  (splitCharList sep s.toList).map (fun cs => String.mk (trimList cs))

/-- Go: func strSliceContains(haystack, needle) (util.go). -/
def strSliceContains (haystack : List String) (needle : String) : Bool :=
  haystack.any (fun x => x == needle)

/-- One decimal field of a dotted quad: 1-3 digits, at most 255, no leading
zero (netip rejects leading zeros in IPv4 fields). -/
def parseV4Field (cs : List Char) : Option Nat :=
  if cs.isEmpty then none
  else if !cs.all Char.isDigit then none
  else if cs.length > 3 then none
  else if cs.length > 1 && cs.head? == some '0' then none
  else
    let v := cs.foldl (fun acc c => acc * 10 + (c.toNat - 48)) 0
    if v > 255 then none else some v

/-- Model of netip parseIPv4: exactly four dotted fields. -/
def parseIPv4 (cs : List Char) : Option Addr :=
  match (splitCharList '.' cs).mapM parseV4Field with
  | some [a, b, c, d] => some (.v4 a b c d)
  | _ => none

def isHexDigit (c : Char) : Bool :=
  c.isDigit || (97 ≤ c.toNat && c.toNat ≤ 102) || (65 ≤ c.toNat && c.toNat ≤ 70)

def hexVal (c : Char) : Nat :=
  if c.isDigit then c.toNat - 48
  else if 97 ≤ c.toNat then c.toNat - 87
  else c.toNat - 55

/-- One IPv6 group: 1-4 hex digits. -/
def parseHexGroup (cs : List Char) : Option Nat :=
  if cs.isEmpty then none
  else if cs.length > 4 then none
  else if !cs.all isHexDigit then none
  else some (cs.foldl (fun acc c => acc * 16 + hexVal c) 0)

/-- A colon-separated run of IPv6 groups; when v4ok is true the final group
may be an embedded dotted quad, contributing two 16-bit groups. -/
def parseGroups (v4ok : Bool) : List (List Char) → Option (List Nat)
  | [] => some []
  | [p] =>
    if v4ok && p.contains '.' then
      match parseIPv4 p with
      | some (.v4 a b c d) => some [a * 256 + b, c * 256 + d]
      | _ => none
    else (parseHexGroup p).map (fun g => [g])
  | p :: rest => do
    let g ← parseHexGroup p
    let gs ← parseGroups v4ok rest
    pure (g :: gs)

def parseGroupSeq (cs : List Char) (v4ok : Bool) : Option (List Nat) :=
  if cs.isEmpty then some [] else parseGroups v4ok (splitCharList ':' cs)

def mkV6 : List Nat → Option Addr
  | [w0, w1, w2, w3, w4, w5, w6, w7] => some (.v6 w0 w1 w2 w3 w4 w5 w6 w7)
  | _ => none

/-- Model of netip parseIPv6: at most one double-colon, which must expand to
at least one zero group; eight groups in total. -/
def parseIPv6 (cs : List Char) : Option Addr :=
  match splitDoubleColonList cs with
  | [a] => do mkV6 (← parseGroupSeq a true)
  | [a, b] => do
    let ga ← parseGroupSeq a false
    let gb ← parseGroupSeq b true
    if ga.length + gb.length ≤ 7 then
      mkV6 (ga ++ List.replicate (8 - (ga.length + gb.length)) 0 ++ gb)
    else none
  | _ => none

/-- Model of netip.ParseAddr: the first special character decides the family
(a percent sign before any dot or colon is an error; zones are unmodelled). -/
def parseAddrList (cs : List Char) : Option Addr :=
  match cs.find? (fun c => c == '.' || c == ':' || c == '%') with
  | some c => if c == '.' then parseIPv4 cs else if c == ':' then parseIPv6 cs else none
  | none => none

/-- Port part of ip:port — decimal digits, value at most 65535. -/
def parsePort (cs : List Char) : Option Nat :=
  if cs.isEmpty then none
  else if !cs.all Char.isDigit then none
  else
    let v := cs.foldl (fun acc c => acc * 10 + (c.toNat - 48)) 0
    if v > 65535 then none else some v

/-- Model of netip splitAddrPort: split at the last colon; a bracketed host
is required for IPv6 and forbidden for IPv4. -/
def splitAddrPortList (cs : List Char) : Option (List Char × List Char × Bool) :=
  match (splitCharList ':' cs).reverse with
  | [] => none
  | [_] => none
  | port :: ipRev =>
    let ip := joinCharList ':' ipRev.reverse
    if ip.isEmpty || port.isEmpty then none
    else if ip.head? == some '[' then
      if ip.length ≥ 2 && ip.getLast? == some ']' then
        some ((ip.drop 1).dropLast, port, true)
      else none
    else some (ip, port, false)

/-- Model of netip.ParseAddrPort. -/
def parseAddrPort (s : String) : Option AddrPort := do
  let (ip, port, v6) ← splitAddrPortList s.toList
  let p ← parsePort port
  let a ← parseAddrList ip
  if v6 && a.Is4 then none
  else if !v6 && a.Is4 == false then none
  else pure ⟨a, p⟩

/-- Go: func parseAddrs(addrStr string) (util.go): the empty string parses to
the empty list, otherwise every comma-separated trimmed part must parse. -/
def parseAddrs (addrStr : String) : Option (List AddrPort) :=
  if addrStr == "" then some []
  else (splitAndTrim addrStr ',').mapM parseAddrPort

/-! ## Request parsing (conn http helpers and the meta codec) -/

/-- Go: const maxAddrs = 10 (common.go). -/
def maxAddrs : Nat := 10

/-- Go: const protocolName = "rdv/1". -/
def protocolName : String := "rdv/1"

/-- The parts of an incoming HTTP request that parseReq inspects: the method,
the protocol version string, and the four header values it reads. -/
structure HttpRequest where
  method : String
  proto : String
  connectionHeader : String
  upgradeHeader : String
  tokenHeader : String
  selfAddrsHeader : String
deriving DecidableEq, Repr

/-- Go: func checkUpgrade(h, proto, single) with single = true, composed with
the http-version test of checkUpgradeRequest.  Every failure in this chain is
wrapped in ErrUpgrade, so a Bool captures it. -/
def checkUpgradeRequestOk (r : HttpRequest) : Bool :=
  toLowerStr r.connectionHeader == "upgrade"
    && toLowerStr r.upgradeHeader != ""
    && (let protos := splitAndTrim (toLowerStr r.upgradeHeader) ','
        strSliceContains protos protocolName && protos.length == 1)
    && toLowerStr r.proto == "http/1.1"

/-- The two error kinds parseReq can produce: ErrUpgrade-wrapped failures from
checkUpgradeRequest, and ErrProtocol-wrapped failures from the later checks. -/
inductive ReqErr where
  | upgradeErr : ReqErr
  | protocolErr : ReqErr
deriving DecidableEq, Repr

/-- The fields of Meta that parseReq fills in. -/
structure ReqMeta where
  isDialer : Bool
  token : String
  selfAddrs : List AddrPort
deriving DecidableEq, Repr

/-- Go: func parseReq(req) (*Meta, error): upgrade headers, then the method
must be DIAL or ACCEPT, the token non-empty, the self-addrs header must parse
and hold at most maxAddrs-1 entries. -/
def parseReq (r : HttpRequest) : Except ReqErr ReqMeta :=
  if !checkUpgradeRequestOk r then .error .upgradeErr
  else
    let isDialer := r.method == "DIAL"
    if !isDialer && r.method != "ACCEPT" then .error .protocolErr
    else if r.tokenHeader == "" then .error .protocolErr
    else
      match parseAddrs r.selfAddrsHeader with
      | none => .error .protocolErr
      | some addrs =>
        if addrs.length > maxAddrs - 1 then .error .protocolErr
        else .ok ⟨isDialer, r.tokenHeader, addrs⟩

/-- Go: upgradeRdv maps an ErrUpgrade parse failure to http.StatusUpgradeRequired
(426) and any other parse failure to http.StatusBadRequest (400). -/
def reqErrStatus : ReqErr → Nat
  | .upgradeErr => 426
  | .protocolErr => 400

/-- The self-addrs condition of the request parser, as a standalone predicate:
the header parses and carries at most maxAddrs - 1 entries. -/
def selfAddrsHeaderOk (s : String) : Bool :=
  match parseAddrs s with
  | some addrs => addrs.length ≤ maxAddrs - 1
  | none => false

/-! ## DefaultSelfAddrs (common.go)

The interface enumeration net.InterfaceAddrs is an effect; the loop body is
modelled over the list of interface prefixes it returned.  Each prefix yields
the candidate AddrPort built from its address and the socket port. -/

/-- The loop of DefaultSelfAddrs: before each append the accumulated length is
compared against maxAddrs - 1 and the loop breaks when it exceeds it. -/
def defaultSelfAddrsLoop (port : Nat) : List Addr → List AddrPort → List AddrPort
  | [], addrs => addrs
  | netAddr :: rest, addrs =>
    if addrs.length > maxAddrs - 1 then addrs
    else defaultSelfAddrsLoop port rest (addrs ++ [⟨netAddr, port⟩])

/-- Go: func DefaultSelfAddrs(ctx, socket) (common.go), with the addresses
returned by net.InterfaceAddrs as an explicit argument. -/
def DefaultSelfAddrs (netAddrs : List Addr) (port : Nat) : List AddrPort :=
  defaultSelfAddrsLoop port netAddrs []

/-! ## Server matchmaking (server.go ServeContext / Serve)

The event loop owns the lobby map from token to parked connection.  We model
the handling of one newly upgraded connection arriving on connCh: the loop
calls interruptAndGetIdle (lookup and delete), dispatches a match when the
roles differ, and otherwise parks the newcomer via addIdle, answering a
displaced same-role entry with writeResponseErr 409. -/

/-- A server-side connection as the matchmaking step sees it: its token, its
role, and an identity for telling connections apart. -/
structure SConn where
  token : String
  isDialer : Bool
  connId : Nat
deriving DecidableEq, Repr

/-- Go: writeResponseErr(nc, statusCode, reason) writes an upgrade-style error
response and closes the connection (defer nc.Close()). -/
structure RespErr where
  status : Nat
  closed : Bool
deriving DecidableEq, Repr

def writeResponseErr (statusCode : Nat) : RespErr := ⟨statusCode, true⟩

/-- What the loop iteration did with the arriving connection. -/
inductive ServeEvent where
  | matched (dc ac : SConn) : ServeEvent
  | joined : ServeEvent
  | replaced (displaced : SConn) (resp : RespErr) : ServeEvent
deriving DecidableEq, Repr

/-- The lobby map, Go: idle map[string]*Conn. -/
def Lobby := String → Option SConn

def lobbyInsert (l : Lobby) (c : SConn) : Lobby :=
  fun t => if t = c.token then some c else l t

def lobbyErase (l : Lobby) (tok : String) : Lobby :=
  fun t => if t = tok then none else l t

/-- One iteration of the connCh branch of Server.ServeContext for an upgraded
connection conn: interruptAndGetIdle(conn.meta.Token) retrieves and removes
any parked entry; with an opposite-role entry the pair is dispatched ordered
(dialer, acceptor); otherwise addIdle parks the newcomer and a same-role
displaced entry is answered with 409 Conflict and closed. -/
def serveStep (idle : Lobby) (conn : SConn) : Lobby × ServeEvent :=
  match idle conn.token with
  | none => (lobbyInsert idle conn, .joined)
  | some idleConn =>
    let idle1 := lobbyErase idle conn.token
    if idleConn.isDialer ≠ conn.isDialer then
      let dc := if conn.isDialer then conn else idleConn
      let ac := if conn.isDialer then idleConn else conn
      (idle1, .matched dc ac)
    else
      (lobbyInsert idle1 conn, .replaced idleConn (writeResponseErr 409))

/-! ## Lobby monitor (server.go addIdle) -/

/-- The outcome of the 1-byte read performed by the monitor goroutine:
the byte count and the error, where deadlineExceeded stands for any error err
with errors.Is(err, os.ErrDeadlineExceeded). -/
inductive ReadErr where
  | deadlineExceeded : ReadErr
  | otherErr (code : Nat) : ReadErr
deriving DecidableEq, Repr

/-- What the monitor goroutine did: the error response it wrote, if any, and
the tokens it posted on the notification channel monCh. -/
structure MonitorResult where
  wrote : Option RespErr
  posted : List String
deriving DecidableEq, Repr

/-- The body of the goroutine started by Server.addIdle, after the read
n, err := conn.Read(make([]byte, 1)) returns: unless n == 0 and the error is
a deadline-exceeded error, it writes a 400 response; it always posts the
token on monCh. -/
def monitorStep (token : String) (n : Nat) (err : Option ReadErr) : MonitorResult :=
  if !(n == 0 && err == some .deadlineExceeded) then
    ⟨some (writeResponseErr 400), [token]⟩
  else
    ⟨none, [token]⟩

/-! ## The relay-penalty chooser (client, withRelayPenalty) -/

/-- A candidate connection as the chooser sees it: its IsRelay flag plus an
identity. -/
structure CConn where
  connId : Nat
  isRelay : Bool
deriving DecidableEq, Repr

/-- State and loop of withRelayPenalty over the drained candidates channel.
cancels counts calls of the cancel function (timer resets are not tracked).
Go keeps chosen and appends every displaced or losing candidate to unchosen. -/
def wrpLoop (chosen : Option CConn) (unchosen : List CConn) (cancels : Nat) :
    List CConn → Option CConn × List CConn × Nat
  | [] => (chosen, unchosen, cancels)
  | nc :: rest =>
    let cancels1 := if !nc.isRelay then cancels + 1 else cancels
    match chosen with
    | none => wrpLoop (some nc) unchosen cancels1 rest
    | some ch =>
      if ch.isRelay then wrpLoop (some nc) (unchosen ++ [ch]) cancels1 rest
      else wrpLoop (some ch) (unchosen ++ [nc]) cancels1 rest

/-- Go: func withRelayPenalty(cancel, candidates, penalty) with the channel
contents as a list, returning (chosen, unchosen) plus the number of times
cancel was called. -/
def withRelayPenalty (candidates : List CConn) : Option CConn × List CConn × Nat :=
  wrpLoop none [] 0 candidates

/-! ## Fan-out dialing filter (client dialAndListen) -/

/-- The per-candidate test of dialAndListen in the ClientConfig revision: a
peer address is dialed exactly when the configured space mask includes its
address space. -/
def dialAndListenDials (spaces : AddrSpace) (addr : AddrPort) : Bool :=
  spaces.Includes (GetAddrSpace addr.addr)

/-! ## Relayer (relay.go Relayer.Run) -/

/-- Errors flowing through the relay errgroup.  eof is io.EOF; the others
stand for ErrIdleTimeout, a context error and arbitrary connection errors. -/
inductive RelayErr where
  | eof : RelayErr
  | idleTimeout : RelayErr
  | ctxCanceled : RelayErr
  | connErr (code : Nat) : RelayErr
deriving DecidableEq, Repr

/-- Go: func copyRelay(to, from, tap, it) (relay.go): the byte count of
io.Copy together with its error, where a nil copy error (clean end of stream)
is replaced by io.EOF. -/
def copyRelay (n : Nat) (copyErr : Option RelayErr) : Nat × RelayErr :=
  (n, match copyErr with
      | none => .eof
      | some e => e)

/-- What one direction of the relay did: the outcome of initiateRelay, and
the io.Copy outcome when initiation succeeded. -/
structure DirOutcome where
  initErr : Option RelayErr
  copied : Nat
  copyErr : Option RelayErr
deriving DecidableEq, Repr

/-- The value returned by one per-direction goroutine of Relayer.Run: on
initiation failure the byte counter keeps its zero value, otherwise the
copyRelay result. -/
def dirResult (d : DirOutcome) : Nat × RelayErr :=
  match d.initErr with
  | some e => (0, e)
  | none => copyRelay d.copied d.copyErr

/-- The three goroutines of the errgroup: the idle-timer wait, the
dial-to-accept direction, and the accept-to-dial direction. -/
inductive RelayTask where
  | timer : RelayTask
  | dialDir : RelayTask
  | acceptDir : RelayTask
deriving DecidableEq, Repr

/-- The error of the goroutine named by its argument. -/
def relayFirstErr (d a : DirOutcome) (timerErr : RelayErr) : RelayTask → RelayErr
  | .timer => timerErr
  | .dialDir => (dirResult d).2
  | .acceptDir => (dirResult a).2

/-- Go: func (r *Relayer) Run(ctx, dc, ac) (relay.go).  Every goroutine of
the group eventually returns a non-nil error, and errgroup Wait reports the
error of the first goroutine to return, given here as the argument first;
io.EOF is then normalized to nil.  timerErr is the value it.Wait returned. -/
def relayerRun (d a : DirOutcome) (timerErr : RelayErr) (first : RelayTask) :
    Nat × Nat × Option RelayErr :=
  let dn := (dirResult d).1
  let an := (dirResult a).1
  let waitErr := relayFirstErr d a timerErr first
  (dn, an, if waitErr = .eof then none else some waitErr)

/-! ## Idle timer (util.go)

The idleTimer checks activity periodically: Wait ticks every timeout D and
returns ErrIdleTimeout at the first tick at which the dirty flag was not set
since the previous tick.  Writes at the time instants in writes set the
flag; tick k happens at time k*D, so the flag it swaps out reflects writes in
the window from (k-1)*D inclusive to k*D exclusive.  The horizon N is the
number of ticks before the context is cancelled. -/

def windowHasWrite (writes : List Nat) (D k : Nat) : Bool :=
  writes.any (fun t => (k - 1) * D ≤ t && t < k * D)

/-- The tick loop of idleTimer.Wait: at each tick, reset() tells whether the
timer was extended since the last tick; if not, the timeout fires. -/
def fireTickAux (writes : List Nat) (D : Nat) : Nat → Nat → Option Nat
  | 0, _ => none
  | fuel + 1, k =>
    if windowHasWrite writes D k then fireTickAux writes D fuel (k + 1)
    else some k

/-- The tick index (time k*D) at which idleTimer.Wait returns ErrIdleTimeout,
or none when it is cancelled before firing within N ticks. -/
def fireTick (writes : List Nat) (D N : Nat) : Option Nat :=
  fireTickAux writes D N 1

/-! ## Shared helper lemmas -/

/-- The first three tests of GetAddrSpace: an invalid, unspecified or
multicast address classifies as SpaceInvalid. -/
theorem getAddrSpace_invalid_cases (ip : Addr)
    (h : ip.IsValid = false ∨ ip.IsUnspecified = true ∨ ip.IsMulticast = true) :
    GetAddrSpace ip = SpaceInvalid := by
  rcases h with h | h | h <;> simp [GetAddrSpace, h]

/-- SpaceInvalid is the zero mask, so no mask includes it. -/
theorem includes_spaceInvalid_false (s : AddrSpace) :
    AddrSpace.Includes s SpaceInvalid = false := by
  simp [AddrSpace.Includes, SpaceInvalid, Nat.zero_and]

/-- For bit masks, anding a value with anything or-ed with it gives it back. -/
theorem and_lor_self (x p : Nat) : p &&& (x ||| p) = p := by
  apply Nat.eq_of_testBit_eq
  intro i
  rw [Nat.testBit_land, Nat.testBit_lor]
  cases p.testBit i <;> simp

/-! ## C6 — the address-space classifier -/

/-- C6: GetAddrSpace returns exactly one member of the AddressSpace
enumeration, follows the precedence invalid or unspecified or multicast,
then loopback, then link-local unicast, then private, then global unicast,
and classifies the twelve listed concrete addresses as expected:
127.0.0.1 and ::1 LOOPBACK, 192.168.0.2 PRIVATE4, fd12:3456:789a:1::1
PRIVATE6, fe80::1234 LINK6, 169.254.12.1 LINK4, 213.213.213.213 and
100.86.144.76 PUBLIC4, 2003::1 PUBLIC6, ::ffff:192.0.2.128 PUBLIC6,
0.0.0.0 and 224.0.0.251 INVALID. -/
theorem getAddrSpace_spec :
    (∀ ip : Addr, GetAddrSpace ip ∈ spaceEnumeration)
    ∧ (∀ ip : Addr,
        (ip.IsValid = false ∨ ip.IsUnspecified = true ∨ ip.IsMulticast = true) →
        GetAddrSpace ip = SpaceInvalid)
    ∧ (∀ ip : Addr, ip.IsValid = true → ip.IsUnspecified = false →
        ip.IsMulticast = false → ip.IsLoopback = true →
        GetAddrSpace ip = SpaceLoopback)
    ∧ (∀ ip : Addr, ip.IsValid = true → ip.IsUnspecified = false →
        ip.IsMulticast = false → ip.IsLoopback = false →
        ip.IsLinkLocalUnicast = true →
        GetAddrSpace ip = if ip.Is4 then SpaceLink4 else SpaceLink6)
    ∧ (∀ ip : Addr, ip.IsValid = true → ip.IsUnspecified = false →
        ip.IsMulticast = false → ip.IsLoopback = false →
        ip.IsLinkLocalUnicast = false → ip.IsPrivate = true →
        GetAddrSpace ip = if ip.Is4 then SpacePrivate4 else SpacePrivate6)
    ∧ (∀ ip : Addr, ip.IsValid = true → ip.IsUnspecified = false →
        ip.IsMulticast = false → ip.IsLoopback = false →
        ip.IsLinkLocalUnicast = false → ip.IsPrivate = false →
        ip.IsGlobalUnicast = true →
        GetAddrSpace ip = if ip.Is4 then SpacePublic4 else SpacePublic6)
    ∧ (GetAddrSpace (.v4 127 0 0 1) = SpaceLoopback
        ∧ GetAddrSpace (.v6 0 0 0 0 0 0 0 1) = SpaceLoopback
        ∧ GetAddrSpace (.v4 192 168 0 2) = SpacePrivate4
        ∧ GetAddrSpace (.v6 0xfd12 0x3456 0x789a 1 0 0 0 1) = SpacePrivate6
        ∧ GetAddrSpace (.v6 0xfe80 0 0 0 0 0 0 0x1234) = SpaceLink6
        ∧ GetAddrSpace (.v4 169 254 12 1) = SpaceLink4
        ∧ GetAddrSpace (.v4 213 213 213 213) = SpacePublic4
        ∧ GetAddrSpace (.v4 100 86 144 76) = SpacePublic4
        ∧ GetAddrSpace (.v6 0x2003 0 0 0 0 0 0 1) = SpacePublic6
        ∧ GetAddrSpace (.v6 0 0 0 0 0 0xffff 0xc000 0x0280) = SpacePublic6
        ∧ GetAddrSpace (.v4 0 0 0 0) = SpaceInvalid
        ∧ GetAddrSpace (.v4 224 0 0 251) = SpaceInvalid) := by
  refine ⟨?_, getAddrSpace_invalid_cases, ?_, ?_, ?_, ?_, by decide⟩
  · intro ip
    unfold GetAddrSpace
    repeat' split
    all_goals decide
  · intro ip h1 h2 h3 h4
    simp [GetAddrSpace, h1, h2, h3, h4]
  · intro ip h1 h2 h3 h4 h5
    simp [GetAddrSpace, h1, h2, h3, h4, h5]
  · intro ip h1 h2 h3 h4 h5 h6
    simp [GetAddrSpace, h1, h2, h3, h4, h5, h6]
  · intro ip h1 h2 h3 h4 h5 h6 h7
    simp [GetAddrSpace, h1, h2, h3, h4, h5, h6, h7]

/-- C6 witness: the loopback precedence case applied to 127.0.0.1. -/
theorem getAddrSpace_spec_witness :
    GetAddrSpace (.v4 127 0 0 1) = SpaceLoopback :=
  getAddrSpace_spec.2.2.1 (.v4 127 0 0 1) (by decide) (by decide) (by decide) (by decide)

/-! ## C8 — the space-mask algebra -/

/-- C8 counterexample: the claim includes INVALID in the enumeration, but
SpaceInvalid is the zero mask, so (s1 | INVALID).Includes(INVALID) is false,
here at s1 = SpacePublic4. -/
theorem includes_invalid_cex :
    AddrSpace.Includes (SpacePublic4 ||| SpaceInvalid) SpaceInvalid = false := by
  decide

/-- C8 amended: for every member s2 of the AddressSpace enumeration other
than INVALID, (s1 | s2).Includes(s2) holds for every mask s1; NoSpaces
includes no member of the enumeration; and no mask ever includes INVALID. -/
theorem includes_lor_amended :
    (∀ s1 s2 : AddrSpace, s2 ∈ spaceEnumeration → s2 ≠ SpaceInvalid →
        AddrSpace.Includes (s1 ||| s2) s2 = true)
    ∧ (∀ s2 : AddrSpace, s2 ∈ spaceEnumeration →
        AddrSpace.Includes NoSpaces s2 = false)
    ∧ (∀ s1 : AddrSpace, AddrSpace.Includes s1 SpaceInvalid = false) := by
  refine ⟨?_, ?_, includes_spaceInvalid_false⟩
  · intro s1 s2 hmem hne
    have hz : s2 ≠ 0 := hne
    simp [AddrSpace.Includes, and_lor_self s1 s2, bne_iff_ne, hz]
  · intro s2 hmem
    fin_cases hmem <;> decide

/-- C8 witness: the amended law at s1 = AllSpaces irq s2 = SpacePublic4. -/
theorem includes_lor_amended_witness :
    AddrSpace.Includes (AllSpaces ||| SpacePublic4) SpacePublic4 = true :=
  includes_lor_amended.1 AllSpaces SpacePublic4 (by decide) (by decide)

/-! ## C3 — the lobby monitor -/

/-- C3: the monitor writes a 400 response exactly when its 1-byte read did
not end with zero bytes and a deadline-exceeded error, and in every case it
posts the token on the notification channel exactly once. -/
theorem monitorStep_spec (token : String) (n : Nat) (err : Option ReadErr) :
    ((monitorStep token n err).wrote = some (writeResponseErr 400) ↔
        ¬(n = 0 ∧ err = some .deadlineExceeded))
    ∧ (monitorStep token n err).posted = [token] := by
  unfold monitorStep
  by_cases h1 : n = 0 <;> by_cases h2 : err = some ReadErr.deadlineExceeded <;>
    simp [h1, h2, writeResponseErr]

/-! ## C10 — DefaultSelfAddrs versus the parser limit -/

/-- A self-addrs header with ten well-formed entries, as DefaultSelfAddrs can
produce on a host with ten interface addresses. -/
def tenSelfAddrsHeader : String :=
  "10.0.0.1:4000, 10.0.0.1:4000, 10.0.0.1:4000, 10.0.0.1:4000, 10.0.0.1:4000, 10.0.0.1:4000, 10.0.0.1:4000, 10.0.0.1:4000, 10.0.0.1:4000, 10.0.0.1:4000"

/-- An otherwise well-formed DIAL request carrying that header. -/
def tenAddrsRequest : HttpRequest :=
  ⟨"DIAL", "HTTP/1.1", "Upgrade", "rdv/1", "token1", tenSelfAddrsHeader⟩

/-- C10: on a host with ten interface addresses, DefaultSelfAddrs returns ten
entries, because its guard breaks only once the accumulated length exceeds
maxAddrs - 1, one append too late; the request parser rejects such a request
with a protocol error answered by 400, refuting the claim.  The code comment
save one addr for the observed addr shows the intended bound is nine. -/
theorem defaultSelfAddrs_offByOne :
    (DefaultSelfAddrs (List.replicate 10 (Addr.v4 10 0 0 1)) 4000).length = 10
    ∧ ¬((DefaultSelfAddrs (List.replicate 10 (Addr.v4 10 0 0 1)) 4000).length ≤ maxAddrs - 1)
    ∧ parseReq tenAddrsRequest = .error .protocolErr
    ∧ reqErrStatus .protocolErr = 400 := by
  refine ⟨rfl, by decide, ?_, rfl⟩
  rfl

/-! ## C4 — the fan-out dial filter -/

/-- C4 counterexample: a public IPv4 candidate with port 80 passes the dial
filter of dialAndListen although its port is below 1024 — the latest client
revision checks only the space mask before dialing. -/
theorem dialFilter_port_cex :
    dialAndListenDials DefaultSpaces ⟨Addr.v4 213 213 213 213, 80⟩ = true
    ∧ 80 < 1024 := by
  decide

/-- C4 amended: a candidate address received from the peer is dialed exactly
when the configured space mask includes its address space; since invalid,
unspecified and multicast addresses classify as INVALID, which no mask
includes, every dialed candidate is a valid non-unspecified non-multicast
address — but no port check is performed before dialing. -/
theorem dialFilter_amended (spaces : AddrSpace) (addr : AddrPort) :
    (dialAndListenDials spaces addr = spaces.Includes (GetAddrSpace addr.addr))
    ∧ (dialAndListenDials spaces addr = true →
        addr.addr.IsValid = true ∧ addr.addr.IsUnspecified = false
          ∧ addr.addr.IsMulticast = false) := by
  refine ⟨rfl, ?_⟩
  intro h
  refine ⟨?_, ?_, ?_⟩ <;> by_contra hc
  · have hinv := getAddrSpace_invalid_cases addr.addr (Or.inl (by
      cases hval : addr.addr.IsValid
      · rfl
      · exact absurd hval hc))
    rw [dialAndListenDials, hinv, includes_spaceInvalid_false] at h
    exact Bool.false_ne_true h
  · have hinv := getAddrSpace_invalid_cases addr.addr (Or.inr (Or.inl (by
      cases hval : addr.addr.IsUnspecified
      · exact absurd hval hc
      · rfl)))
    rw [dialAndListenDials, hinv, includes_spaceInvalid_false] at h
    exact Bool.false_ne_true h
  · have hinv := getAddrSpace_invalid_cases addr.addr (Or.inr (Or.inr (by
      cases hval : addr.addr.IsMulticast
      · exact absurd hval hc
      · rfl)))
    rw [dialAndListenDials, hinv, includes_spaceInvalid_false] at h
    exact Bool.false_ne_true h

/-- C4 witness: the amended statement applied to a private IPv4 candidate
that the default mask admits. -/
theorem dialFilter_amended_witness :
    (Addr.v4 192 168 0 2).IsValid = true
    ∧ (Addr.v4 192 168 0 2).IsUnspecified = false
    ∧ (Addr.v4 192 168 0 2).IsMulticast = false :=
  (dialFilter_amended DefaultSpaces ⟨Addr.v4 192 168 0 2, 5000⟩).2 (by decide)

/-! ## C7 — Relayer.Run result -/

/-- C7 counterexample: the dial direction ends with a clean EOF and completes
first, while the accept direction fails with a non-EOF connection error; Run
returns a nil error rather than that first non-EOF error. -/
theorem relayerRun_cex :
    relayerRun ⟨none, 5, none⟩ ⟨none, 3, some (.connErr 104)⟩ .ctxCanceled .dialDir
      = (5, 3, none)
    ∧ (dirResult ⟨none, 3, some (.connErr 104)⟩).2 = .connErr 104
    ∧ RelayErr.connErr 104 ≠ RelayErr.eof
    ∧ (none : Option RelayErr) ≠ some (.connErr 104) := by
  decide

/-- C7 amended: Run returns the bytes copied in each direction, and the error
of the first goroutine to complete, with io.EOF normalized to nil — a
non-EOF error from a later goroutine is discarded. -/
theorem relayerRun_amended (d a : DirOutcome) (timerErr : RelayErr) (first : RelayTask) :
    ((relayerRun d a timerErr first).1 = if d.initErr = none then d.copied else 0)
    ∧ ((relayerRun d a timerErr first).2.1 = if a.initErr = none then a.copied else 0)
    ∧ (relayFirstErr d a timerErr first = .eof →
        (relayerRun d a timerErr first).2.2 = none)
    ∧ (relayFirstErr d a timerErr first ≠ .eof →
        (relayerRun d a timerErr first).2.2 = some (relayFirstErr d a timerErr first)) := by
  refine ⟨?_, ?_, ?_, ?_⟩
  · rcases d with ⟨di, dc, de⟩
    cases di <;> simp [relayerRun, dirResult, copyRelay]
  · rcases a with ⟨ai, ac, ae⟩
    cases ai <;> simp [relayerRun, dirResult, copyRelay]
  · intro h
    simp [relayerRun, h]
  · intro h
    simp [relayerRun, h]

/-- C7 witness: a clean EOF in the first-completing direction yields a nil
error. -/
theorem relayerRun_amended_witness :
    (relayerRun ⟨none, 7, none⟩ ⟨none, 2, some (.connErr 1)⟩ .idleTimeout .dialDir).2.2
      = none :=
  (relayerRun_amended ⟨none, 7, none⟩ ⟨none, 2, some (.connErr 1)⟩ .idleTimeout .dialDir).2.2.1
    (by decide)

/-! ## C1 — server matchmaking -/

/-- C1: when an upgraded connection reaches the event loop, a pair is
dispatched exactly when a parked entry with the same token and a different
role exists; a dispatched pair is ordered (dialer, acceptor), consists of the
newcomer and the parked entry, and leaves the lobby; a parked entry with the
same role is displaced by the newcomer and answered with 409 Conflict and
closed; with no parked entry the newcomer is simply parked. -/
theorem serveStep_spec (idle : Lobby) (conn : SConn) :
    ((∃ dc ac, (serveStep idle conn).2 = .matched dc ac) ↔
        (∃ e, idle conn.token = some e ∧ e.isDialer ≠ conn.isDialer))
    ∧ (∀ dc ac, (serveStep idle conn).2 = .matched dc ac →
        dc.isDialer = true ∧ ac.isDialer = false
          ∧ ((dc = conn ∧ idle conn.token = some ac)
              ∨ (ac = conn ∧ idle conn.token = some dc))
          ∧ (serveStep idle conn).1 conn.token = none)
    ∧ (∀ e, idle conn.token = some e → e.isDialer = conn.isDialer →
        (serveStep idle conn).2 = .replaced e (writeResponseErr 409)
          ∧ (serveStep idle conn).1 conn.token = some conn)
    ∧ (idle conn.token = none →
        (serveStep idle conn).2 = .joined
          ∧ (serveStep idle conn).1 conn.token = some conn) := by
  cases h : idle conn.token with
  | none =>
    refine ⟨?_, ?_, ?_, ?_⟩
    · simp [serveStep, h]
    · intro dc ac hm
      simp [serveStep, h] at hm
    · intro e he
      exact absurd he (by simp)
    · intro _
      simp [serveStep, h, lobbyInsert]
  | some e =>
    by_cases hrole : e.isDialer = conn.isDialer
    · refine ⟨?_, ?_, ?_, ?_⟩
      · simp [serveStep, h, hrole]
      · intro dc ac hm
        simp [serveStep, h, hrole] at hm
      · intro e2 he2 _
        injection he2 with he3
        subst he3
        constructor
        · simp [serveStep, h, hrole]
        · simp [serveStep, h, hrole, lobbyInsert]
      · intro hnone
        exact absurd hnone (by simp)
    · have he : e.isDialer = !conn.isDialer := by
        cases hce : conn.isDialer <;> cases hee : e.isDialer <;> simp_all
      refine ⟨?_, ?_, ?_, ?_⟩
      · cases hc : conn.isDialer <;>
          rw [hc] at he <;> simp only [Bool.not_false, Bool.not_true] at he <;>
          simp [serveStep, h, hrole, hc, he]
      · intro dc ac hm
        cases hc : conn.isDialer
        · rw [hc] at he
          simp only [Bool.not_false] at he
          simp [serveStep, h, hrole, hc, he] at hm
          rcases hm with ⟨rfl, rfl⟩
          refine ⟨he, hc, Or.inr ⟨rfl, rfl⟩, ?_⟩
          simp [serveStep, h, hrole, hc, he, lobbyErase]
        · rw [hc] at he
          simp only [Bool.not_true] at he
          simp [serveStep, h, hrole, hc, he] at hm
          rcases hm with ⟨rfl, rfl⟩
          refine ⟨hc, he, Or.inl ⟨rfl, rfl⟩, ?_⟩
          simp [serveStep, h, hrole, hc, he, lobbyErase]
      · intro e2 he2 hrole2
        injection he2 with he3
        subst he3
        exact absurd hrole2 hrole
      · intro hnone
        exact absurd hnone (by simp)

/-- C1 witness: a same-role arrival displaces the parked dialer with a 409
and parks the newcomer. -/
theorem serveStep_spec_witness :
    (serveStep (lobbyInsert (fun _ => none) ⟨"t", true, 0⟩) ⟨"t", true, 1⟩).2
        = .replaced ⟨"t", true, 0⟩ (writeResponseErr 409)
      ∧ (serveStep (lobbyInsert (fun _ => none) ⟨"t", true, 0⟩) ⟨"t", true, 1⟩).1 "t"
        = some ⟨"t", true, 1⟩ :=
  (serveStep_spec (lobbyInsert (fun _ => none) ⟨"t", true, 0⟩) ⟨"t", true, 1⟩).2.2.1
    ⟨"t", true, 0⟩ (by decide) rfl

/-! ## C5 — the request parser -/

/-- C5: parseReq accepts a request exactly when the Connection and Upgrade
headers specify a single rdv/1 upgrade over HTTP/1.1, the method is DIAL or
ACCEPT, the token header is non-empty, and the self-addrs header parses as a
comma-separated ip:port list with at most maxAddrs - 1 = 9 entries; a failed
upgrade check is answered with 426 and every other parse failure with 400. -/
theorem parseReq_spec (r : HttpRequest) :
    ((∃ m, parseReq r = .ok m) ↔
        (checkUpgradeRequestOk r = true
          ∧ (r.method = "DIAL" ∨ r.method = "ACCEPT")
          ∧ r.tokenHeader ≠ ""
          ∧ selfAddrsHeaderOk r.selfAddrsHeader = true))
    ∧ (∀ e, parseReq r = .error e →
        (reqErrStatus e = 426 ↔ checkUpgradeRequestOk r = false)
        ∧ (reqErrStatus e = 400 ↔ checkUpgradeRequestOk r = true)) := by
  by_cases hu : checkUpgradeRequestOk r = true
  · by_cases hd : r.method = "DIAL"
    · by_cases ht : r.tokenHeader = ""
      · constructor
        · simp [parseReq, hu, hd, ht, selfAddrsHeaderOk]
        · intro e he
          simp [parseReq, hu, hd, ht] at he
          cases he
          simp [reqErrStatus, hu]
      · rcases hpa : parseAddrs r.selfAddrsHeader with _ | addrs
        · constructor
          · simp [parseReq, hu, hd, ht, hpa, selfAddrsHeaderOk]
          · intro e he
            simp [parseReq, hu, hd, ht, hpa] at he
            cases he
            simp [reqErrStatus, hu]
        · by_cases hlen : addrs.length > maxAddrs - 1
          · constructor
            · simp [parseReq, hu, hd, ht, hpa, hlen, selfAddrsHeaderOk]
            · intro e he
              simp [parseReq, hu, hd, ht, hpa, hlen] at he
              cases he
              simp [reqErrStatus, hu]
          · constructor
            · simp [parseReq, hu, hd, ht, hpa, hlen, selfAddrsHeaderOk]
              omega
            · intro e he
              simp [parseReq, hu, hd, ht, hpa, hlen] at he
    · by_cases ha : r.method = "ACCEPT"
      · by_cases ht : r.tokenHeader = ""
        · constructor
          · simp [parseReq, hu, hd, ha, ht, selfAddrsHeaderOk]
          · intro e he
            simp [parseReq, hu, hd, ha, ht] at he
            cases he
            simp [reqErrStatus, hu]
        · rcases hpa : parseAddrs r.selfAddrsHeader with _ | addrs
          · constructor
            · simp [parseReq, hu, hd, ha, ht, hpa, selfAddrsHeaderOk]
            · intro e he
              simp [parseReq, hu, hd, ha, ht, hpa] at he
              cases he
              simp [reqErrStatus, hu]
          · by_cases hlen : addrs.length > maxAddrs - 1
            · constructor
              · simp [parseReq, hu, hd, ha, ht, hpa, hlen, selfAddrsHeaderOk]
              · intro e he
                simp [parseReq, hu, hd, ha, ht, hpa, hlen] at he
                cases he
                simp [reqErrStatus, hu]
            · constructor
              · simp [parseReq, hu, hd, ha, ht, hpa, hlen, selfAddrsHeaderOk]
                omega
              · intro e he
                simp [parseReq, hu, hd, ha, ht, hpa, hlen] at he
      · constructor
        · simp [parseReq, hu, hd, ha]
        · intro e he
          simp [parseReq, hu, hd, ha] at he
          cases he
          simp [reqErrStatus, hu]
  · constructor
    · simp [parseReq, hu]
    · intro e he
      simp [parseReq, hu] at he
      cases he
      simp [reqErrStatus, hu]

/-- C5 witness: a well-formed DIAL request with one candidate address is
accepted. -/
theorem parseReq_spec_witness :
    ∃ m, parseReq ⟨"DIAL", "HTTP/1.1", "Upgrade", "rdv/1", "tok", "1.2.3.4:8080"⟩ = .ok m :=
  (parseReq_spec ⟨"DIAL", "HTTP/1.1", "Upgrade", "rdv/1", "tok", "1.2.3.4:8080"⟩).1.mpr
    ⟨by decide, Or.inl rfl, by decide, by decide⟩

/-! ## C2 — the relay-penalty chooser -/

/-- The cancel counter of the chooser loop counts the direct candidates. -/
theorem wrpLoop_cancels (l : List CConn) : ∀ ch un cz,
    (wrpLoop ch un cz l).2.2 = cz + (l.filter (fun c => !c.isRelay)).length := by
  induction l with
  | nil => intro ch un cz; simp [wrpLoop]
  | cons nc rest ih =>
    intro ch un cz
    cases hr : nc.isRelay
    · cases ch with
      | none => simp [wrpLoop, hr, ih]; omega
      | some c => cases hc : c.isRelay <;> simp [wrpLoop, hr, hc, ih] <;> omega
    · cases ch with
      | none => simp [wrpLoop, hr, ih]
      | some c => cases hc : c.isRelay <;> simp [wrpLoop, hr, hc, ih]

/-- A chosen direct candidate is never displaced. -/
theorem wrpLoop_chosen_direct (l : List CConn) : ∀ un cz c, c.isRelay = false →
    (wrpLoop (some c) un cz l).1 = some c := by
  induction l with
  | nil => intro un cz c _; rfl
  | cons nc rest ih =>
    intro un cz c hc
    simp [wrpLoop, hc]
    exact ih _ _ c hc

/-- Once anything is chosen, the chooser keeps something chosen. -/
theorem wrpLoop_chosen_isSome (l : List CConn) : ∀ un cz c,
    (wrpLoop (some c) un cz l).1.isSome = true := by
  induction l with
  | nil => intro un cz c; rfl
  | cons nc rest ih =>
    intro un cz c
    cases hc : c.isRelay <;> simp [wrpLoop, hc] <;> exact ih _ _ _

/-- Nothing is chosen only when the channel yielded nothing. -/
theorem wrpLoop_none_of (l : List CConn) (un : List CConn) (cz : Nat)
    (h : (wrpLoop none un cz l).1 = none) : l = [] := by
  cases l with
  | nil => rfl
  | cons nc rest =>
    exfalso
    have hs := wrpLoop_chosen_isSome rest un (if !nc.isRelay then cz + 1 else cz) nc
    rw [show wrpLoop none un cz (nc :: rest)
        = wrpLoop (some nc) un (if !nc.isRelay then cz + 1 else cz) rest from rfl] at h
    rw [h] at hs
    exact Bool.false_ne_true hs

/-- While no direct candidate has been seen, the chooser tracks the first
direct candidate of the remaining input. -/
theorem wrpLoop_first_direct (l : List CConn) : ∀ un cz ch,
    (ch = none ∨ ∃ c, ch = some c ∧ c.isRelay = true) →
    (∃ d ∈ l, d.isRelay = false) →
    (wrpLoop ch un cz l).1 = l.find? (fun c => !c.isRelay) := by
  induction l with
  | nil =>
    intro un cz ch _ hex
    rcases hex with ⟨d, hd, _⟩
    cases hd
  | cons nc rest ih =>
    intro un cz ch hch hex
    cases hr : nc.isRelay
    · rw [List.find?_cons_of_pos _ (by simp [hr])]
      rcases hch with rfl | ⟨c, rfl, hc⟩
      · simp only [wrpLoop]
        exact wrpLoop_chosen_direct rest _ _ nc hr
      · simp only [wrpLoop, hc, if_pos rfl]
        exact wrpLoop_chosen_direct rest _ _ nc hr
    · rw [List.find?_cons_of_neg _ (by simp [hr])]
      have hex2 : ∃ d ∈ rest, d.isRelay = false := by
        rcases hex with ⟨d, hd, hdr⟩
        rcases List.mem_cons.mp hd with rfl | hd2
        · rw [hr] at hdr
          exact absurd hdr (by simp)
        · exact ⟨d, hd2, hdr⟩
      rcases hch with rfl | ⟨c, rfl, hc⟩
      · simp only [wrpLoop]
        exact ih _ _ (some nc) (Or.inr ⟨nc, rfl, hr⟩) hex2
      · simp only [wrpLoop, hc, if_pos rfl]
        exact ih _ _ (some nc) (Or.inr ⟨nc, rfl, hr⟩) hex2

/-- The chosen and unchosen lists together are a permutation of the input. -/
theorem wrpLoop_perm (l : List CConn) : ∀ un cz ch,
    List.Perm ((wrpLoop ch un cz l).1.toList ++ (wrpLoop ch un cz l).2.1)
      (ch.toList ++ un ++ l) := by
  induction l with
  | nil =>
    intro un cz ch
    simp [wrpLoop]
  | cons nc rest ih =>
    intro un cz ch
    cases ch with
    | none =>
      refine ((ih un _ (some nc)).trans ?_)
      exact List.perm_middle.symm
    | some c =>
      cases hc : c.isRelay
      · simp only [wrpLoop, hc, Bool.false_eq_true, if_false]
        refine ((ih (un ++ [nc]) _ (some c)).trans ?_)
        have h3 : (some c).toList ++ (un ++ [nc]) ++ rest
            = (some c).toList ++ un ++ (nc :: rest) := by simp
        rw [h3]
      · simp only [wrpLoop, hc, if_pos rfl]
        refine ((ih (un ++ [c]) _ (some nc)).trans ?_)
        have h1 : List.Perm (nc :: ((un ++ [c]) ++ rest)) (nc :: (c :: (un ++ rest))) := by
          rw [List.append_assoc]
          exact List.Perm.cons nc List.perm_middle
        have h2 : List.Perm (c :: (un ++ nc :: rest)) (c :: (nc :: (un ++ rest))) :=
          List.Perm.cons c List.perm_middle
        exact h1.trans ((List.Perm.swap c nc _).trans h2.symm)

/-- C2: for a candidate sequence holding at most one relay connection, the
chooser picks the first direct candidate when one exists and otherwise the
relay; the chosen and unchosen connections partition the input; and cancel
is invoked once per direct candidate received. -/
theorem withRelayPenalty_spec (candidates : List CConn)
    (hrelay : (candidates.filter (fun c => c.isRelay)).length ≤ 1) :
    ((∃ d ∈ candidates, d.isRelay = false) →
        (withRelayPenalty candidates).1 = candidates.find? (fun c => !c.isRelay))
    ∧ ((∀ c ∈ candidates, c.isRelay = true) → ∀ r ∈ candidates,
        (withRelayPenalty candidates).1 = some r)
    ∧ (∀ c, (withRelayPenalty candidates).1 = some c →
        List.Perm (c :: (withRelayPenalty candidates).2.1) candidates)
    ∧ ((withRelayPenalty candidates).1 = none →
        (withRelayPenalty candidates).2.1 = [] ∧ candidates = [])
    ∧ (withRelayPenalty candidates).2.2
        = (candidates.filter (fun c => !c.isRelay)).length := by
  refine ⟨?_, ?_, ?_, ?_, ?_⟩
  · intro hex
    exact wrpLoop_first_direct candidates [] 0 none (Or.inl rfl) hex
  · intro hall r hr
    have hfil : candidates.filter (fun c => c.isRelay) = candidates :=
      List.filter_eq_self.mpr hall
    rw [hfil] at hrelay
    cases candidates with
    | nil => cases hr
    | cons x rest =>
      cases rest with
      | nil =>
        have hrx : r = x := by simpa using hr
        subst hrx
        cases hx : r.isRelay <;> simp [withRelayPenalty, wrpLoop, hx]
      | cons y rest2 => simp at hrelay
  · intro c hc
    have he : withRelayPenalty candidates = wrpLoop none [] 0 candidates := rfl
    rw [he] at hc
    have hp := wrpLoop_perm candidates [] 0 none
    rw [hc] at hp
    rw [he]
    simpa using hp
  · intro hnone
    have hl := wrpLoop_none_of candidates [] 0 hnone
    subst hl
    exact ⟨rfl, rfl⟩
  · have he : withRelayPenalty candidates = wrpLoop none [] 0 candidates := rfl
    rw [he]
    simpa using wrpLoop_cancels candidates none [] 0

/-- C2 witness: with a relay followed by a direct candidate, the first direct
candidate is chosen. -/
theorem withRelayPenalty_spec_witness :
    (withRelayPenalty [⟨0, true⟩, ⟨1, false⟩]).1
      = List.find? (fun c => !c.isRelay) [⟨0, true⟩, ⟨1, false⟩] :=
  (withRelayPenalty_spec [⟨0, true⟩, ⟨1, false⟩] (by decide)).1
    ⟨⟨1, false⟩, by decide, rfl⟩

/-! ## C9 — the idle timer -/

/-- The tick loop fires at the first tick whose preceding window saw no
activity, and not before. -/
theorem fireTickAux_spec (writes : List Nat) (D : Nat) :
    ∀ fuel k0 k, fireTickAux writes D fuel k0 = some k →
      k0 ≤ k ∧ windowHasWrite writes D k = false
        ∧ ∀ j, k0 ≤ j → j < k → windowHasWrite writes D j = true := by
  intro fuel
  induction fuel with
  | zero =>
    intro k0 k h
    simp [fireTickAux] at h
  | succ n ih =>
    intro k0 k h
    rw [fireTickAux] at h
    by_cases hw : windowHasWrite writes D k0 = true
    · rw [if_pos hw] at h
      obtain ⟨hk, hfalse, hall⟩ := ih (k0 + 1) k h
      refine ⟨by omega, hfalse, fun j hj1 hj2 => ?_⟩
      by_cases hj : j = k0
      · exact hj ▸ hw
      · exact hall j (by omega) hj2
    · rw [if_neg hw] at h
      injection h with h2
      subst h2
      refine ⟨Nat.le_refl _, by simpa using hw, fun j hj1 hj2 => ?_⟩
      omega

/-- If every window within the horizon saw activity, the timer never fires. -/
theorem fireTickAux_none (writes : List Nat) (D : Nat) :
    ∀ fuel k0, (∀ j, k0 ≤ j → j < k0 + fuel → windowHasWrite writes D j = true) →
      fireTickAux writes D fuel k0 = none := by
  intro fuel
  induction fuel with
  | zero => intro k0 _; rfl
  | succ n ih =>
    intro k0 hall
    rw [fireTickAux, if_pos (hall k0 (Nat.le_refl _) (by omega))]
    exact ih (k0 + 1) (fun j hj1 hj2 => hall j (by omega) (by omega))

/-- C9 amended: activity is only checked at tick boundaries k*D — the
callback fires at the first tick whose preceding window [(k-1)*D, k*D)
contains no write, hence strictly more than D and (from the second tick on)
at most 2*D after the last preceding write; it does not fire within the
horizon as long as every tick window contains a write. -/
theorem idleTimer_fire_amended (writes : List Nat) (D N : Nat) :
    (∀ k, fireTick writes D N = some k →
        windowHasWrite writes D k = false
        ∧ (∀ j, 1 ≤ j → j < k → windowHasWrite writes D j = true)
        ∧ (∀ t ∈ writes, t < k * D → t + D < k * D)
        ∧ (2 ≤ k → ∃ t ∈ writes, k * D ≤ t + 2 * D))
    ∧ ((∀ j, 1 ≤ j → j ≤ N → windowHasWrite writes D j = true) →
        fireTick writes D N = none) := by
  constructor
  · intro k h
    obtain ⟨hk1, hwf, hall⟩ := fireTickAux_spec writes D N 1 k h
    have hnot : ∀ t ∈ writes, ¬((k - 1) * D ≤ t ∧ t < k * D) := by
      intro t ht hcontra
      have : windowHasWrite writes D k = true := by
        simp only [windowHasWrite, List.any_eq_true]
        exact ⟨t, ht, by simp [hcontra.1, hcontra.2]⟩
      rw [hwf] at this
      exact Bool.false_ne_true this
    refine ⟨hwf, hall, ?_, ?_⟩
    · intro t ht htk
      obtain ⟨m, rfl⟩ : ∃ m, k = m + 1 := ⟨k - 1, by omega⟩
      have hlt : t < m * D := by
        rcases Nat.lt_or_ge t (m * D) with hlt | hge
        · exact hlt
        · exact absurd ⟨by simpa using hge, htk⟩ (hnot t ht)
      have hmul : (m + 1) * D = m * D + D := Nat.succ_mul m D
      omega
    · intro hk2
      have hw := hall (k - 1) (by omega) (by omega)
      simp only [windowHasWrite, List.any_eq_true] at hw
      obtain ⟨t, ht, hcond⟩ := hw
      have h1 : (k - 1 - 1) * D ≤ t := by
        have := (Bool.and_eq_true _ _).mp hcond
        simpa using this.1
      obtain ⟨m, rfl⟩ : ∃ m, k = m + 2 := ⟨k - 2, by omega⟩
      refine ⟨t, ht, ?_⟩
      have hmul : (m + 2) * D = m * D + D + D := by ring
      have h2 : m * D ≤ t := by simpa using h1
      omega
  · intro hall
    exact fireTickAux_none writes D N 1 (fun j hj1 hj2 => hall j hj1 (by omega))

/-- C9 counterexample: with period D = 2 and a single write at time 1, the
claim predicts the callback at time 1 + D = 3, but the periodic check fires
it at the tick boundary 4. -/
theorem idleTimer_exact_fire_cex :
    (fireTick [1] 2 5).map (fun k => k * 2) = some 4
    ∧ (fireTick [1] 2 5).map (fun k => k * 2) ≠ some (1 + 2) := by
  decide

/-- C9 witness: the amended statement at the concrete run with one write. -/
theorem idleTimer_fire_amended_witness :
    windowHasWrite [1] 2 2 = false :=
  ((idleTimer_fire_amended [1] 2 5).1 2 (by decide)).1

end Rdv
